import Mathlib

/-!
# Verification of the `fk-result` Result type (src/src/index.ts)

A shallow embedding of the TypeScript `Result` library: a closed sum type
with an `ok` variant carrying a value and an `err` variant carrying an
error, together with the combinators the specification describes
(`map`, `bind`, `unwrap`, `expect`, `unwrapOr`, `all`, `any`, `wrap`,
`fold`).

The canonical source is the superset variant of `index.ts` (the one
containing `union`, `tap`/`tapErr` and `fold`).  TypeScript union types
on the error/value channels (`E | En`) are type-level plumbing with no
runtime content; the embedding uses a single error type per chain.
JavaScript abrupt termination (`throw`) is modelled with `Except`:
a computation that may throw a value of type `X` and normally return `V`
is a term of `Except X V`.  The universe of thrown objects is `Thrown E`:
either a raw payload thrown as-is (`throw this.err`) or a fresh
`new Error(msg)` object carrying only an optional message.
-/

namespace FkResult

/-- The thrown-object universe for modelling JavaScript `throw`:
`payload e` is the value `e` itself thrown as-is (no wrapper);
`errorObj msg` is a fresh `new Error(msg)` object, which carries only the
optional message and no original error payload. -/
inductive Thrown (E : Type) where
  | payload (e : E)
  | errorObj (msg : Option String)
deriving DecidableEq, Repr

/-- `Result<V, E> = ResultOk<V> | ResultErr<E>`: a closed sum type with
exactly two variants, `ok` holding a success value and `err` holding an
error value. -/
inductive Result (V E : Type) where
  | ok (val : V)
  | err (err : E)
deriving DecidableEq, Repr

namespace Result

variable {V E Vn En A T : Type}

/-- `isOk`: constant boolean tag, `true` exactly on the Ok variant. -/
def isOk : Result V E → Bool
  | .ok _ => true
  | .err _ => false

/-- `isErr`: constant boolean tag, `true` exactly on the Err variant. -/
def isErr : Result V E → Bool
  | .ok _ => false
  | .err _ => true

/-- `unwrap()`: on Ok returns the value; on Err, `throw this.err` — the
held error payload itself is the thrown object. -/
def unwrap : Result V E → Except (Thrown E) V
  | .ok v => .ok v
  | .err e => .error (.payload e)

/-- `expect(msg?)`: on Ok returns the value (the message is ignored); on
Err, `throw new Error(msg)` — a fresh generic error object carrying the
optional message and discarding the original error payload. -/
def expect (r : Result V E) (msg : Option String) : Except (Thrown E) V :=
  match r with
  | .ok v => .ok v
  | .err _ => .error (.errorObj msg)

/-- `unwrapOr(def)`: on Ok returns the value; on Err returns the default. -/
def unwrapOr (r : Result V E) (dflt : V) : V :=
  match r with
  | .ok v => v
  | .err _ => dflt

/-- Modelled from the spec: `unwrapBy(unwrapper)` is named by the
specification (section 4.3) but is absent from the source files under
src/ — the `IResult` interface there does not declare it.  Per the spec:
on Ok, returns the value directly and the unwrapper is never invoked; on
Err, invokes `unwrapper(error)`, a caller-supplied handler required never
to return normally.  The handler is therefore modelled by the thrown
object it produces: `unwrapper : E → Thrown E`. -/
def unwrapBy (r : Result V E) (unwrapper : E → Thrown E) : Except (Thrown E) V :=
  match r with
  | .ok v => .ok v
  | .err e => .error (unwrapper e)

/-- `map(fn)`: on Ok returns `Result.ok(fn(this.val))`; on Err returns
`this` unchanged (the function is not invoked). -/
def map (r : Result V E) (fn : V → Vn) : Result Vn E :=
  match r with
  | .ok v => .ok (fn v)
  | .err e => .err e

/-- `mapErr(fn)`: on Err returns `Result.err(fn(this.err))`; on Ok returns
`this` unchanged. -/
def mapErr (r : Result V E) (fn : E → En) : Result V En :=
  match r with
  | .ok v => .ok v
  | .err e => .err (fn e)

/-- `bind(fn)`: on Ok returns `fn(this.val)` directly (flattening); on Err
returns `this` unchanged (the function is not invoked). -/
def bind (r : Result V E) (fn : V → Result Vn E) : Result Vn E :=
  match r with
  | .ok v => fn v
  | .err e => .err e

/-- `bindErr(fn)`: on Err returns `fn(this.err)` directly; on Ok returns
`this` unchanged. -/
def bindErr (r : Result V E) (fn : E → Result V En) : Result V En :=
  match r with
  | .ok v => .ok v
  | .err e => fn e

/-- The loop body of `Result.all`: iterates over `results`, returning the
current element unchanged as soon as `result.isErr`, otherwise pushing
`result.val` onto `vals`. -/
def allGo (vals : List V) : List (Result V E) → Result (List V) E
  | [] => .ok vals
  | result :: rest =>
    match result with
    | .err e => .err e
    | .ok v => allGo (vals ++ [v]) rest

/-- `Result.all(results)`: starts the loop with an empty `vals` array and
returns `Result.ok(vals)` when the loop completes without meeting an Err. -/
def all (results : List (Result V E)) : Result (List V) E :=
  allGo [] results

/-- The loop body of `Result.any`: iterates over `results`, returning the
current element unchanged as soon as `result.isOk`, otherwise pushing
`result.err` onto `errs`. -/
def anyGo (errs : List E) : List (Result V E) → Result V (List E)
  | [] => .err errs
  | result :: rest =>
    match result with
    | .ok v => .ok v
    | .err e => anyGo (errs ++ [e]) rest

/-- `Result.any(results)`: starts the loop with an empty `errs` array and
returns `Result.err(errs)` when the loop completes without meeting an Ok. -/
def any (results : List (Result V E)) : Result V (List E) :=
  anyGo [] results

/-- `Result.wrap(fn)`: invokes the zero-argument computation; if it
returns normally with `v`, yields `Result.ok(v)`; if it throws `e`,
catches it and yields `Result.err(e)`.  The computation is modelled as a
function into `Except E V`. -/
def wrap (fn : Unit → Except E V) : Result V E :=
  match fn () with
  | .ok v => .ok v
  | .error e => .err e

/-- The body of `list.reduce(...)` used by `Result.fold`: threads the
accumulated `Result` through every element of the list in order, binding
`folder acc curr index` at each position.  `index` is the current array
index, as JavaScript `reduce` supplies it. -/
def foldGo (folder : A → T → Nat → Result A E) :
    Result A E → List T → Nat → Result A E
  | accResult, [], _ => accResult
  | accResult, curr :: rest, index =>
    foldGo folder (accResult.bind (fun acc => folder acc curr index)) rest (index + 1)

/-- `Result.fold(list, init, folder)`: the bind-chained reduction
`list.reduce((accResult, curr, index) => accResult.bind(acc =>
folder(acc, curr, index)), Result.ok(init))`. -/
def fold (list : List T) (init : A) (folder : A → T → Nat → Result A E) :
    Result A E :=
  foldGo folder (.ok init) list 0

/-- Written from the claim's words, for comparison with `fold`:
left-to-right processing with an accumulator, calling
`folder acc curr index` on each element; an Err stops immediately and is
the overall result (later elements are never examined and the folder is
never called on them); an Ok carries the new accumulator; an exhausted
list yields `ok` of the final accumulator. -/
def foldSpec (folder : A → T → Nat → Result A E) :
    A → List T → Nat → Result A E
  | acc, [], _ => .ok acc
  | acc, curr :: rest, index =>
    match folder acc curr index with
    | .err e => .err e
    | .ok a => foldSpec folder a rest (index + 1)

/-! ## Helper lemmas -/

theorem allGo_eq (vals : List V) (l : List (Result V E)) :
    allGo vals l = (all l).map (fun vs => vals ++ vs) := by
  induction l generalizing vals with
  | nil => simp [allGo, all, map]
  | cons r rest ih =>
    cases r with
    | err e => rfl
    | ok v =>
      show allGo (vals ++ [v]) rest = (allGo ([] ++ [v]) rest).map (fun vs => vals ++ vs)
      rw [ih (vals ++ [v]), ih ([] ++ [v])]
      show _ = ((all rest).map (fun vs => [v] ++ vs)).map (fun vs => vals ++ vs)
      cases all rest with
      | err e => rfl
      | ok vs => simp [map]

theorem all_cons_ok (v : V) (rest : List (Result V E)) :
    all (.ok v :: rest) = (all rest).map (fun vs => v :: vs) := by
  show allGo ([] ++ [v]) rest = _
  rw [allGo_eq ([] ++ [v]) rest]
  rfl

theorem all_firstErr {l : List (Result V E)} {i : Nat} {e : E}
    (hg : l.get? i = some (.err e))
    (hok : ∀ j, j < i → ∃ v, l.get? j = some (.ok v)) :
    all l = .err e := by
  induction l generalizing i with
  | nil => simp [List.get?] at hg
  | cons r rest ih =>
    cases i with
    | zero =>
      simp only [List.get?] at hg
      injection hg with hg
      subst hg
      rfl
    | succ j =>
      obtain ⟨v, hv⟩ := hok 0 (Nat.succ_pos j)
      simp only [List.get?] at hv
      injection hv with hv
      subst hv
      simp only [List.get?] at hg
      rw [all_cons_ok]
      rw [ih hg (fun k hk => hok (k + 1) (Nat.succ_lt_succ hk))]
      rfl

theorem all_ok_of_map (vs : List V) :
    all (vs.map (fun v => (Result.ok v : Result V E))) = .ok vs := by
  induction vs with
  | nil => rfl
  | cons v vs ih =>
    simp only [List.map, all_cons_ok, ih]
    rfl

theorem anyGo_eq (errs : List E) (l : List (Result V E)) :
    anyGo errs l = (any l).mapErr (fun es => errs ++ es) := by
  induction l generalizing errs with
  | nil => simp [anyGo, any, mapErr]
  | cons r rest ih =>
    cases r with
    | ok v => rfl
    | err e =>
      show anyGo (errs ++ [e]) rest = (anyGo ([] ++ [e]) rest).mapErr (fun es => errs ++ es)
      rw [ih (errs ++ [e]), ih ([] ++ [e])]
      show _ = ((any rest).mapErr (fun es => [e] ++ es)).mapErr (fun es => errs ++ es)
      cases any rest with
      | ok v => rfl
      | err es => simp [mapErr]

theorem any_cons_err (e : E) (rest : List (Result V E)) :
    any (.err e :: rest) = (any rest).mapErr (fun es => e :: es) := by
  show anyGo ([] ++ [e]) rest = _
  rw [anyGo_eq ([] ++ [e]) rest]
  rfl

theorem any_firstOk {l : List (Result V E)} {i : Nat} {v : V}
    (hg : l.get? i = some (.ok v))
    (herr : ∀ j, j < i → ∃ e, l.get? j = some (.err e)) :
    any l = .ok v := by
  induction l generalizing i with
  | nil => simp [List.get?] at hg
  | cons r rest ih =>
    cases i with
    | zero =>
      simp only [List.get?] at hg
      injection hg with hg
      subst hg
      rfl
    | succ j =>
      obtain ⟨e, he⟩ := herr 0 (Nat.succ_pos j)
      simp only [List.get?] at he
      injection he with he
      subst he
      simp only [List.get?] at hg
      rw [any_cons_err]
      rw [ih hg (fun k hk => herr (k + 1) (Nat.succ_lt_succ hk))]
      rfl

theorem any_err_of_map (es : List E) :
    any (es.map (fun e => (Result.err e : Result V E))) = .err es := by
  induction es with
  | nil => rfl
  | cons e es ih =>
    simp only [List.map, any_cons_err, ih]
    rfl

theorem foldGo_err (folder : A → T → Nat → Result A E) (e : E) :
    ∀ (l : List T) (i : Nat), foldGo folder (.err e) l i = .err e := by
  intro l
  induction l with
  | nil => intro i; rfl
  | cons t rest ih => intro i; exact ih (i + 1)

theorem foldGo_ok (folder : A → T → Nat → Result A E) :
    ∀ (l : List T) (a : A) (i : Nat),
      foldGo folder (.ok a) l i = foldSpec folder a l i := by
  intro l
  induction l with
  | nil => intro a i; rfl
  | cons t rest ih =>
    intro a i
    simp only [foldGo, foldSpec, bind]
    cases folder a t i with
    | ok a2 => exact ih a2 (i + 1)
    | err e => exact foldGo_err folder e rest (i + 1)

theorem foldGo_append (folder : A → T → Nat → Result A E) :
    ∀ (l1 l2 : List T) (acc : Result A E) (i : Nat),
      foldGo folder acc (l1 ++ l2) i
        = foldGo folder (foldGo folder acc l1 i) l2 (i + l1.length) := by
  intro l1
  induction l1 with
  | nil => intro l2 acc i; simp [foldGo]
  | cons t rest ih =>
    intro l2 acc i
    show foldGo folder (acc.bind (fun a => folder a t i)) (rest ++ l2) (i + 1) = _
    rw [ih]
    have h : i + 1 + rest.length = i + (t :: rest).length := by
      simp [List.length_cons]
      omega
    rw [h]
    rfl

/-! ## Claim theorems -/

/-- C1: `fold(list, init, folder)` — defined in the source as the
bind-chain `list.reduce((accResult, curr, index) =>
accResult.bind(acc => folder(acc, curr, index)), Ok(init))` — processes
the list left-to-right with accumulator starting at `init`, calling
`folder(acc, curr, index)` at each element: an Err stops immediately and
is the overall result, an Ok carries the new accumulator, and an
exhausted list yields `Ok` of the final accumulator (that process is
`foldSpec`).  The second conjunct makes the short-circuit explicit: once
a prefix of the list folds to an Err, the overall result is that Err for
every suffix whatsoever, so the folder is never consulted on any later
element. -/
theorem fold_spec (list : List T) (init : A)
    (folder : A → T → Nat → Result A E) :
    (fold list init folder = foldSpec folder init list 0)
    ∧ (∀ (pre suf : List T) (e : E), list = pre ++ suf →
        foldSpec folder init pre 0 = .err e → fold list init folder = .err e) := by
  constructor
  · exact foldGo_ok folder list init 0
  · intro pre suf e hl he
    subst hl
    show foldGo folder (.ok init) (pre ++ suf) 0 = .err e
    rw [foldGo_append, foldGo_ok, he, foldGo_err]

/-- Witness for C1: the spec's own test — folding `[1,2,3]` with a folder
that errs on `2` yields `Err "stop"`, obtained through the short-circuit
conjunct with prefix `[1, 2]` and suffix `[3]`. -/
theorem fold_spec_witness :
    fold [1, 2, 3] 0
      (fun acc v _ => if v = 2 then (.err "stop" : Result Nat String) else .ok (acc + v))
      = .err "stop" :=
  (fold_spec [1, 2, 3] 0
      (fun acc v _ => if v = 2 then (.err "stop" : Result Nat String) else .ok (acc + v))).2
    [1, 2] [3] "stop" rfl (by decide)

/-- C2: `all(results)` returns the first Err in the list (index order)
unchanged — the result is `Err e` whenever position `i` holds `Err e` and
every earlier position holds an Ok, no matter what follows position `i` —
and when every element is an Ok (`l = vs.map ok`), returns `Ok` of all
carried values in the original order. -/
theorem all_spec (l : List (Result V E)) :
    (∀ i e, l.get? i = some (.err e) →
      (∀ j, j < i → ∃ v, l.get? j = some (.ok v)) → all l = .err e)
    ∧ (∀ vs, l = vs.map (fun v => Result.ok v) → all l = .ok vs) := by
  constructor
  · intro i e hg hok
    exact all_firstErr hg hok
  · intro vs h
    subst h
    exact all_ok_of_map vs

/-- Witness for C2: `all [Ok 1, Err "x", Ok 3] = Err "x"` (first error at
index 1 wins) and `all [Ok 1, Ok 2, Ok 3] = Ok [1, 2, 3]`. -/
theorem all_spec_witness :
    all [Result.ok 1, Result.err "x", Result.ok 3] = .err "x"
    ∧ all ([Result.ok 1, Result.ok 2, Result.ok 3] : List (Result Nat String))
        = .ok [1, 2, 3] := by
  constructor
  · exact (all_spec [Result.ok 1, Result.err "x", Result.ok 3]).1 1 "x" rfl
      (fun j hj => by
        have hj0 : j = 0 := Nat.lt_one_iff.mp hj
        subst hj0
        exact ⟨1, rfl⟩)
  · exact (all_spec ([Result.ok 1, Result.ok 2, Result.ok 3] :
      List (Result Nat String))).2 [1, 2, 3] rfl

/-- C3: `any(results)` returns the first Ok in the list (index order)
unchanged — the result is `Ok v` whenever position `i` holds `Ok v` and
every earlier position holds an Err, no matter what follows — and when
every element is an Err (`l = es.map err`), returns `Err` of all carried
error values, one per input, in the original order. -/
theorem any_spec (l : List (Result V E)) :
    (∀ i v, l.get? i = some (.ok v) →
      (∀ j, j < i → ∃ e, l.get? j = some (.err e)) → any l = .ok v)
    ∧ (∀ es, l = es.map (fun e => Result.err e) → any l = .err es) := by
  constructor
  · intro i v hg herr
    exact any_firstOk hg herr
  · intro es h
    subst h
    exact any_err_of_map es

/-- Witness for C3: `any [Err "a", Ok 2, Err "c"] = Ok 2` (first Ok at
index 1 wins) and `any [Err "a", Err "b"] = Err ["a", "b"]`. -/
theorem any_spec_witness :
    any [Result.err "a", Result.ok 2, Result.err "c"] = .ok 2
    ∧ any ([Result.err "a", Result.err "b"] : List (Result Nat String))
        = .err ["a", "b"] := by
  constructor
  · exact (any_spec [Result.err "a", Result.ok 2, Result.err "c"]).1 1 2 rfl
      (fun j hj => by
        have hj0 : j = 0 := Nat.lt_one_iff.mp hj
        subst hj0
        exact ⟨"a", rfl⟩)
  · exact (any_spec ([Result.err "a", Result.err "b"] :
      List (Result Nat String))).2 ["a", "b"] rfl

/-- C4: `wrap(fn)` returns `Ok(fn())` when the computation completes
normally, and `Err` of the exact raised object, unmodified, when it
raises. -/
theorem wrap_spec (fn : Unit → Except E V) :
    (∀ v, fn () = .ok v → wrap fn = .ok v)
    ∧ (∀ e, fn () = .error e → wrap fn = .err e) := by
  constructor
  · intro v h
    simp only [wrap, h]
  · intro e h
    simp only [wrap, h]

/-- Witness for C4: `wrap(() => 42) = Ok 42` and
`wrap(() => { throw "boom" }) = Err "boom"`. -/
theorem wrap_spec_witness :
    wrap (fun _ => (Except.ok 42 : Except String Nat)) = .ok 42
    ∧ wrap (fun _ => (Except.error "boom" : Except String Nat)) = .err "boom" :=
  ⟨(wrap_spec (fun _ => (Except.ok 42 : Except String Nat))).1 42 rfl,
   (wrap_spec (fun _ => (Except.error "boom" : Except String Nat))).2 "boom" rfl⟩

/-- C5: `Ok(v).unwrap()` returns `v`, and `Err(e).unwrap()` raises `e`
itself — the held error payload thrown as-is (`Thrown.payload e`), not a
wrapper object around it. -/
theorem unwrap_spec (v : V) (e : E) :
    unwrap (Result.ok v : Result V E) = Except.ok v
    ∧ unwrap (Result.err e : Result V E) = Except.error (Thrown.payload e) :=
  ⟨rfl, rfl⟩

/-- C6: `Ok(v).expect(m)` returns `v`; `Err(e).expect(m)` raises a fresh
generic error object carrying only the optional message
(`Thrown.errorObj m`), never the original payload `e` — the last conjunct
shows the result is the same for every discarded error payload. -/
theorem expect_spec (v : V) (e e2 : E) (msg : Option String) :
    expect (Result.ok v : Result V E) msg = Except.ok v
    ∧ expect (Result.err e : Result V E) msg = Except.error (Thrown.errorObj msg)
    ∧ expect (Result.err e : Result V E) msg = expect (Result.err e2) msg :=
  ⟨rfl, rfl, rfl⟩

/-- C7: `Err(e).map(f)` and `Err(e).bind(g)` each equal `Err(e)` for
every `f` and `g` — the result does not depend on the supplied function
at all, so the function is never invoked. -/
theorem err_shortCircuit (e : E) (f : V → Vn) (g : V → Result Vn E) :
    (Result.err e : Result V E).map f = .err e
    ∧ (Result.err e : Result V E).bind g = .err e :=
  ⟨rfl, rfl⟩

/-- C8: identity law — `r.map(x => x)` is the very same Result as `r`:
same variant, same payload, for either variant. -/
theorem map_id (r : Result V E) : r.map (fun x => x) = r := by
  cases r <;> rfl

/-- C9: `unwrapBy(handler)` (modelled from the spec, see `unwrapBy`)
returns the value on Ok without consulting the handler — the same result
for any two handlers — and on Err raises exactly what `handler(e)`
produces. -/
theorem unwrapBy_spec (v : V) (e : E) (h h2 : E → Thrown E) :
    unwrapBy (Result.ok v : Result V E) h = Except.ok v
    ∧ unwrapBy (Result.ok v : Result V E) h = unwrapBy (Result.ok v) h2
    ∧ unwrapBy (Result.err e : Result V E) h = Except.error (h e) :=
  ⟨rfl, rfl, rfl⟩

/-- C10: on the empty list, `all` returns `Ok` of the empty sequence and
`any` returns `Err` of the empty sequence; neither fails. -/
theorem all_any_nil (V E : Type) :
    all ([] : List (Result V E)) = .ok []
    ∧ any ([] : List (Result V E)) = .err [] :=
  ⟨rfl, rfl⟩

end Result

end FkResult
